import Mathlib

/-!
Verification of the overworld / dialogue core of the `illusory-friends` game
(Rust sources under `src/`).  The game's `f32` arithmetic is embedded as exact
rational arithmetic (`ℚ`); all operations used by the verified core
(addition, subtraction, `abs`, `min`, comparisons, `copysign`) are exact.
Rust `usize` becomes `Nat`, `i32` becomes `Int`, `Ustr`/`String` become
`String`.  `hecs::World` is embedded as an association list from entity ids to
component bundles (each component optional, mirroring dynamic component sets);
iteration order of queries is the list order.  The `futures` one-shot channels
used by the dialogue engine are embedded as a heap `Nat → ChanState`:
dropping a pending sender closes the channel (`futures::channel::oneshot`
semantics: a dropped sender makes the receiver resolve to `Err(Canceled)`).
-/

namespace IllusoryFriends

/-- Embedded `f32`. -/
abbrev F : Type := ℚ

/-- `macroquad::math::Vec2` (an `f32` pair). -/
structure Vec2 where
  x : F
  y : F
deriving DecidableEq, Repr

instance : Add Vec2 := ⟨fun a b => ⟨a.x + b.x, a.y + b.y⟩⟩

theorem Vec2.add_def (a b : Vec2) : a + b = ⟨a.x + b.x, a.y + b.y⟩ := rfl

/-- Axis-aligned rectangle (`src/types.rs` / `macroquad::math::Rect`; the two
types have identical layout and identical `overlaps`). -/
structure Rect where
  x : F
  y : F
  w : F
  h : F
deriving DecidableEq, Repr

/-- `Rect::left` (`src/types.rs:23`). -/
def Rect.left (r : Rect) : F := r.x

/-- `Rect::right` (`src/types.rs:27`). -/
def Rect.right (r : Rect) : F := r.x + r.w

/-- `Rect::top` (`src/types.rs:31`). -/
def Rect.top (r : Rect) : F := r.y

/-- `Rect::bottom` (`src/types.rs:35`). -/
def Rect.bottom (r : Rect) : F := r.y + r.h

/-- `macroquad::math::Rect::offset` (also `src/types.rs:63`, with the offset
given as a vector as in `main.rs`). -/
def Rect.offset (r : Rect) (v : Vec2) : Rect := { r with x := r.x + v.x, y := r.y + v.y }

/-- `Rect::point()`: the top-left corner. -/
def Rect.point (r : Rect) : Vec2 := ⟨r.x, r.y⟩

/-- `Rect::overlaps` (`src/types.rs:72-77`; macroquad's is identical):
touching edges count as overlapping. -/
def Rect.overlaps (a b : Rect) : Bool :=
  decide (a.left ≤ b.right) && decide (a.right ≥ b.left) &&
  decide (a.top ≤ b.bottom) && decide (a.bottom ≥ b.top)

/-- `macroquad::math::Rect::contains` (external collaborator of
`Overworld::interact`): half-open on the right/bottom edges. -/
def Rect.contains (r : Rect) (p : Vec2) : Bool :=
  decide (p.x ≥ r.x) && decide (p.x < r.x + r.w) &&
  decide (p.y ≥ r.y) && decide (p.y < r.y + r.h)

/-- `f32::copysign(self = m, sign = s)`: magnitude of `m`, sign of `s`
(`ℚ` has no negative zero; `s = 0` gives the positive sign, as `+0.0` does). -/
def copysign (m s : F) : F := if s < 0 then -|m| else |m|

/-! ## Components (`src/main.rs:72-165`) and the entity world -/

/-- `TextureId` (`src/assets.rs:85-89`). -/
inductive TextureId
  | name (s : String)
  | animatedSpriteId (id : Nat)
deriving DecidableEq, Repr

/-- `SpriteComponent` (`src/main.rs:77-85`). -/
structure SpriteComponent where
  texture : TextureId
  source : Option Rect
  offset : Vec2
  centered : Bool
  flip_h : Bool
  layer : Int
deriving DecidableEq, Repr

/-- `Default for SpriteComponent` (derived in the source; `TextureId` defaults
to the `"missing"` texture, `src/assets.rs:91-95`). -/
def SpriteComponent.default : SpriteComponent :=
  { texture := .name "missing", source := none, offset := ⟨0, 0⟩,
    centered := false, flip_h := false, layer := 0 }

/-- `AnimationComponent` (`src/main.rs:126-132`). -/
structure AnimationComponent where
  id : Nat
  animation : String
  frame : Nat
  offset : Vec2
deriving DecidableEq, Repr

/-- `InteractableType` (`src/main.rs:140-144`). -/
inductive InteractableType
  | Lamp
  | Ghost
deriving DecidableEq, Repr

/-- `Interactable` (`src/main.rs:152-158`). -/
structure Interactable where
  bounds : Rect
  interaction : InteractableType
  priority : Int
deriving DecidableEq, Repr

/-- `FollowComponent` (`src/main.rs:160-165`). -/
structure FollowComponent where
  target : Nat
  max_distance : F
  speed : F
deriving DecidableEq, Repr

/-- One entity's component bundle (a `hecs` entity with any subset of the
game's components; absent components are `none`). -/
structure Ent where
  pos : Option Vec2
  sprite : Option SpriteComponent
  collision : Option Rect
  anim : Option AnimationComponent
  interactable : Option Interactable
  follow : Option FollowComponent
deriving DecidableEq, Repr

/-- The `hecs::World` of `Overworld`: entity ids paired with their bundles. -/
abbrev World : Type := List (Nat × Ent)

/-- `world.query_one::<...>(id)`-style lookup: the first entry with this id. -/
def World.find (w : World) (id : Nat) : Option Ent :=
  (w.find? (fun p => p.1 == id)).map Prod.snd

/-- Mutating one entity's `Position` through `query_one_mut::<&mut Position>`. -/
def World.updatePos (w : World) (id : Nat) (f : Vec2 → Vec2) : World :=
  w.map (fun p => if p.1 == id then (p.1, { p.2 with pos := p.2.pos.map f }) else p)

/-! ## Dialogue engine (`src/main.rs:513-663, 820-935`) -/

/-- State of one `futures::channel::oneshot` channel.  `sent v` means the
sender fired with value `v` (`()` payloads are encoded as `0`); `closed`
means the sender was dropped without sending, so the receiver's await
resolves to `Err(Canceled)`. -/
inductive ChanState
  | pending
  | sent (v : Nat)
  | closed
deriving DecidableEq, Repr

/-- The heap of one-shot channels, keyed by allocation index. -/
abbrev Chans : Type := Nat → ChanState

/-- Firing a sender (`sender.send(v)`). -/
def sendChan (ch : Chans) (c : Nat) (v : Nat) : Chans :=
  fun n => if n = c then .sent v else ch n

/-- Dropping a sender without sending: a pending channel becomes closed. -/
def dropSender (ch : Chans) (c : Nat) : Chans :=
  fun n => if n = c then (match ch c with | .pending => .closed | s => s) else ch n

/-- `WaitingFor` (`src/main.rs:513-518`): the pending continuation, holding
the sender half of its one-shot channel. -/
inductive WaitingFor
  | confirm (ch : Nat)
  | choice (ch : Nat)
  | auto (ch : Nat)
  | nothing
deriving DecidableEq, Repr

/-- Overwriting a `WaitingFor` value drops the sender it holds. -/
def WaitingFor.drop (w : WaitingFor) (ch : Chans) : Chans :=
  match w with
  | .confirm c => dropSender ch c
  | .choice c => dropSender ch c
  | .auto c => dropSender ch c
  | .nothing => ch

/-- `PortraitOrientation` (`src/main.rs:526-530`). -/
inductive PortraitOrientation
  | Left
  | Right
deriving DecidableEq, Repr

/-- `Portrait` (`src/main.rs:937-941`). -/
inductive Portrait
  | Maribelle
  | Ghost
deriving DecidableEq, Repr

/-- `Dialogue` (`src/main.rs:532-541`).  Rust's `current_text.len()` is the
byte length; the game only ever shows ASCII text, so `String.length` agrees. -/
structure Dialogue where
  shown : Bool
  current_text : String
  current_progress : Nat
  waiting_for : WaitingFor
  choices : Option (List String)
  current_choice : Nat
  portrait : Option (SpriteComponent × PortraitOrientation)
deriving DecidableEq, Repr

/-- `Default for Dialogue` (derived in the source; `WaitingFor` defaults to
`Nothing`, `src/main.rs:520-524`). -/
def Dialogue.init : Dialogue :=
  { shown := false, current_text := "", current_progress := 0,
    waiting_for := .nothing, choices := none, current_choice := 0, portrait := none }

/-- `Dialogue::set_text` (`src/main.rs:544-548`). -/
def Dialogue.set_text (d : Dialogue) (text : String) : Dialogue :=
  { d with shown := true, current_text := text, current_progress := 0 }

/-- The per-frame input snapshot consumed by `Dialogue::update`
(`is_key_pressed(Up / Down / Space)`). -/
structure Input where
  up : Bool
  down : Bool
  confirm : Bool
deriving DecidableEq, Repr

/-- A frame with no key pressed. -/
def noInput : Input := ⟨false, false, false⟩

/-- A frame with only Space (confirm) pressed. -/
def confirmInput : Input := ⟨false, false, true⟩

/-- `Dialogue::update`, first statement (`src/main.rs:551`): reveal progress
increments by one each tick. -/
def Dialogue.stepProgress (d : Dialogue) : Dialogue :=
  { d with current_progress := d.current_progress + 1 }

/-- `Dialogue::update`, choice navigation (`src/main.rs:552-565`): when a
choice list is present, Up/Down move the highlighted index with wraparound.
(For a present-but-empty choice list and an Up press, Rust's `len() - 1`
underflows; that state is unreachable from the game's scripts.) -/
def Dialogue.stepChoiceNav (d : Dialogue) (inp : Input) : Dialogue :=
  match d.choices with
  | none => d
  | some cs =>
    let d :=
      if inp.up then
        { d with current_choice :=
            match d.current_choice with
            | 0 => cs.length - 1
            | n + 1 => n }
      else d
    if inp.down then
      { d with current_choice :=
          if d.current_choice ≥ cs.length - 1 then 0 else d.current_choice + 1 }
    else d

/-- `Dialogue::update`, auto-advance (`src/main.rs:567-576`): once reveal
progress reaches/exceeds the text length, a pending `Auto` sender fires
(no input involved); any other pending continuation is put back. -/
def Dialogue.stepAuto (d : Dialogue) (ch : Chans) : Dialogue × Chans :=
  if d.current_progress ≥ d.current_text.length then
    match d.waiting_for with
    | .auto c => ({ d with waiting_for := .nothing }, sendChan ch c 0)
    | w => ({ d with waiting_for := w }, ch)
  else (d, ch)

/-- `Dialogue::update`, confirm handling (`src/main.rs:578-589`): on a Space
press, a pending `Confirm` sender fires with `()`, a pending `Choice` sender
fires with the highlighted index and the choice list is cleared; any other
pending continuation is put back. -/
def Dialogue.stepConfirm (d : Dialogue) (inp : Input) (ch : Chans) : Dialogue × Chans :=
  if inp.confirm then
    match d.waiting_for with
    | .confirm c => ({ d with waiting_for := .nothing }, sendChan ch c 0)
    | .choice c =>
        ({ d with waiting_for := .nothing, choices := none }, sendChan ch c d.current_choice)
    | w => ({ d with waiting_for := w }, ch)
  else (d, ch)

/-- `Dialogue::update` (`src/main.rs:550-590`), as the sequence of its four
blocks. -/
def Dialogue.update (d : Dialogue) (inp : Input) (ch : Chans) : Dialogue × Chans :=
  let d1 := (d.stepProgress).stepChoiceNav inp
  let p := d1.stepAuto ch
  p.1.stepConfirm inp p.2

/-- The number of characters the dialogue box draws
(`num_chars`, `src/main.rs:610`): display clamps progress to the text length. -/
def Dialogue.revealedChars (d : Dialogue) : Nat :=
  min d.current_text.length d.current_progress

/-! ## Game facade (`src/main.rs:810-935`): the dialogue-control API -/

/-- The dialogue-relevant state owned by `Game` (`_Game.dialogue`) together
with the one-shot channel heap backing the suspended scripts.  `next` is the
next fresh channel index. -/
structure GameState where
  dialogue : Dialogue
  chans : Chans
  next : Nat

/-- Allocate a fresh one-shot channel pair.  The returned index plays the
role of the `Receiver` handed back to the dialogue script. -/
def GameState.allocChan (ch : Chans) (c : Nat) : Chans :=
  fun n => if n = c then .pending else ch n

/-- `Game::show_text` (`src/main.rs:870-879`): set the text, create a one-shot
channel and park its sender as the pending `Confirm` continuation (the
assignment drops the previously parked sender).  Returns the receiver. -/
def GameState.show_text (g : GameState) (text : String) : GameState × Nat :=
  let d := g.dialogue.set_text text
  let c := g.next
  let chans := GameState.allocChan (d.waiting_for.drop g.chans) c
  ({ dialogue := { d with waiting_for := .confirm c }, chans := chans, next := c + 1 }, c)

/-- `Game::show_text_auto` (`src/main.rs:881-890`): like `show_text` but the
sender is parked as an `Auto` continuation. -/
def GameState.show_text_auto (g : GameState) (text : String) : GameState × Nat :=
  let d := g.dialogue.set_text text
  let c := g.next
  let chans := GameState.allocChan (d.waiting_for.drop g.chans) c
  ({ dialogue := { d with waiting_for := .auto c }, chans := chans, next := c + 1 }, c)

/-- `Game::show_choice` (`src/main.rs:892-902`): replace the choice list,
reset the highlighted index to 0, and park a fresh `Choice` sender. -/
def GameState.show_choice (g : GameState) (choices : List String) : GameState × Nat :=
  let c := g.next
  let chans := GameState.allocChan (g.dialogue.waiting_for.drop g.chans) c
  let d := { g.dialogue with choices := some choices, current_choice := 0, waiting_for := WaitingFor.choice c }
  ({ dialogue := d, chans := chans, next := c + 1 }, c)

/-- `Game::show_portrait` (`src/main.rs:904-921`). -/
def GameState.show_portrait (g : GameState)
    (portrait : Option (Portrait × PortraitOrientation)) : GameState :=
  let sprite : Portrait → SpriteComponent := fun p =>
    match p with
    | .Maribelle => { SpriteComponent.default with texture := .name "maribelleportrait" }
    | .Ghost => { SpriteComponent.default with texture := .name "ghostportrait" }
  { g with dialogue := { g.dialogue with portrait := portrait.map (fun q => (sprite q.1, q.2)) } }

/-- `Game::end_dialogue` (`src/main.rs:923-930`): hide the box, clear the
portrait, the choice list and the highlighted index, and replace the pending
continuation with `Nothing` — dropping the suspended sender, which closes its
channel.  (`current_text` and `current_progress` are not touched.) -/
def GameState.end_dialogue (g : GameState) : GameState :=
  let d := { g.dialogue with shown := false, portrait := none, choices := none, current_choice := 0, waiting_for := WaitingFor.nothing }
  { g with dialogue := d, chans := g.dialogue.waiting_for.drop g.chans }

/-- One frame of `Game::update` restricted to the dialogue half
(`this.dialogue.update()`, `src/main.rs:836`). -/
def GameState.tick (g : GameState) (inp : Input) : GameState :=
  let p := g.dialogue.update inp g.chans
  { g with dialogue := p.1, chans := p.2 }

/-- `futures::channel::oneshot::Canceled`. -/
inductive Canceled
  | canceled
deriving DecidableEq, Repr

/-- Awaiting a one-shot `Receiver`: still suspended while the channel is
pending, `Ok` once the sender fired, `Err(Canceled)` once the sender was
dropped. -/
def recv (ch : Chans) (c : Nat) : Option (Except Canceled Nat) :=
  match ch c with
  | .pending => none
  | .sent v => some (.ok v)
  | .closed => some (.error .canceled)

/-- `wrap_dialogue` (`src/main.rs:1316-1324`): the script runner awaits the
script and discards an error outcome (after a debug log); it never panics on
either outcome. -/
def wrap_dialogue {e : Type} : Except e Unit → Unit
  | .ok _ => ()
  | .error _ => ()

/-! ## Animated sprites (`src/assets/animated_sprite.rs`) and assets -/

/-- `Frame` (`src/assets/animated_sprite.rs:115-120`); the two `[f32; 2]`
fields are embedded as vectors. -/
structure Frame where
  src : Rect
  offset : Vec2
  source_size : Vec2
deriving DecidableEq, Repr

/-- `SpriteInfo` inside `AnimatedSprite` (`src/assets/animated_sprite.rs:122-131`);
the `HashMap<String, Vec<usize>>` of per-animation expanded frame sequences is
embedded as an association list. -/
structure AnimatedSprite where
  frames : List Frame
  animations : List (String × List Nat)
deriving DecidableEq, Repr

/-- `AnimatedSprite::get_anim_frame` (`src/assets/animated_sprite.rs:153-163`).
An unknown animation name or an out-of-range frame index falls back to
`frame_id = 0`.  The final `self.info.frames[frame_id]` indexing panics when
it is out of range (in particular on an empty frame table); the embedding
returns `none` exactly there. -/
def AnimatedSprite.get_anim_frame (s : AnimatedSprite) (anim : String) (frame : Nat) :
    Option Frame :=
  let frame_id := ((s.animations.lookup anim).bind (fun l => l.get? frame)).getD 0
  s.frames.get? frame_id

/-- `AnimatedSprite::get_anim_length` (`src/assets/animated_sprite.rs:165-171`):
the length of the expanded sequence, `0` for an unknown animation name. -/
def AnimatedSprite.get_anim_length (s : AnimatedSprite) (anim : String) : Nat :=
  ((s.animations.lookup anim).map List.length).getD 0

/-- The slice of `Assets` (`src/assets.rs:171-179`) consumed by the animation
ticker: the animated-sprite table and the id of the player sprite
(`char_sprite`, always `AnimatedSpriteId(0)` in the game). -/
structure Assets where
  animated_sprites : List AnimatedSprite
  char_sprite : Nat
deriving Repr

/-- `Assets::get::<AnimatedSpriteId>` (`src/assets.rs:77-83`):
`animated_sprites[id]`.  Out-of-range indexing panics in Rust; the theorems
below only apply it in range, where the default is irrelevant. -/
def Assets.get (a : Assets) (id : Nat) : AnimatedSprite :=
  (a.animated_sprites.get? id).getD ⟨[], []⟩

/-! ## Overworld systems (`src/main.rs:254-478`) -/

/-- `Overworld::follow`, adjustment computation for one follower
(`src/main.rs:261-271`): `none` when the separation is within
`max_distance`. -/
def followAdjustment (pos target_pos : Vec2) (follow : FollowComponent) : Option Vec2 :=
  let x_diff := target_pos.x - pos.x
  let y_diff := target_pos.y - pos.y
  if |x_diff| + |y_diff| > follow.max_distance then
    if |x_diff| > |y_diff| then
      some ⟨copysign (min |x_diff| follow.speed) x_diff, 0⟩
    else
      some ⟨0, copysign (min |y_diff| follow.speed) y_diff⟩
  else none

/-- `Overworld::follow`, one iteration of the query loop
(`src/main.rs:256-273`): the adjustment (keyed by entity id) contributed by
one world entry, `none` when the entry is not a follower, its target is
missing or positionless, or it is within range. -/
def followEmit (w : World) (p : Nat × Ent) : Option (Nat × Vec2) :=
  match p.2.pos, p.2.follow with
  | some pos, some f =>
    match (World.find w f.target).bind Ent.pos with
    | some tp => (followAdjustment pos tp f).map (fun a => (p.1, a))
    | none => none
  | _, _ => none

/-- `Overworld::follow`, query phase (`src/main.rs:255-274`): collect the
per-follower adjustments against the pre-update positions. -/
def Overworld.followAdjustments (w : World) : List (Nat × Vec2) :=
  w.filterMap (followEmit w)

/-- `Overworld::follow` (`src/main.rs:254-279`): apply the collected
adjustments. -/
def Overworld.follow (w : World) : World :=
  (Overworld.followAdjustments w).foldl (fun w' pa => World.updatePos w' pa.1 (· + pa.2)) w

/-- One overlap-resolution step of `Overworld::resolve_penetrations`
(`src/main.rs:302-319`): push `ourBox` out of `otherBox` along the axis whose
minimum-magnitude candidate is smaller, ties resolving to the horizontal
axis (`std::cmp::min_by` returns its first argument on a tie). -/
def resolveStep (ourBox otherBox : Rect) : Rect :=
  if ourBox.overlaps otherBox then
    let leftwards_motion := otherBox.left - ourBox.right
    let rightwards_motion := otherBox.right - ourBox.left
    let upwards_motion := otherBox.top - ourBox.bottom
    let downwards_motion := otherBox.bottom - ourBox.top
    let min_horiz := if |leftwards_motion| ≤ |rightwards_motion| then leftwards_motion else rightwards_motion
    let min_vert := if |upwards_motion| ≤ |downwards_motion| then upwards_motion else downwards_motion
    if |min_horiz| ≤ |min_vert| then { ourBox with x := ourBox.x + min_horiz }
    else { ourBox with y := ourBox.y + min_vert }
  else ourBox

/-- The world-space collision boxes of every entity other than `entity`
(the `query_mut::<(&Position, &CollisionComponent)>` loop of
`resolve_penetrations`, `src/main.rs:288-301`). -/
def collidablesExcept (w : World) (entity : Nat) : List Rect :=
  w.filterMap (fun p =>
    if p.1 == entity then none
    else
      match p.2.pos, p.2.collision with
      | some pos, some b => some (b.offset pos)
      | _, _ => none)

/-- The subject lookup `query_one_mut::<(&Position, &CollisionComponent)>`
of `resolve_penetrations` (`src/main.rs:282-285`). -/
def subjectPosBounds (w : World) (entity : Nat) : Option (Vec2 × Rect) :=
  (World.find w entity).bind (fun e => e.pos.bind (fun p => e.collision.map (fun b => (p, b))))

/-- The positional delta produced by resolving one overlap:
`resolveStep` moves the box, the delta is the box displacement. -/
def stepDelta (box other : Rect) : Vec2 :=
  ⟨(resolveStep box other).x - box.x, (resolveStep box other).y - box.y⟩

/-- `Overworld::resolve_penetrations` (`src/main.rs:281-325`): fold the
per-overlap pushes over all other collidable entities, starting from the
subject's world-space box, then add the accumulated delta
(`our_box.point() - bounds.point() - pos`) to the subject's position.
A subject without `Position` + `CollisionComponent` is left alone. -/
def Overworld.resolve_penetrations (w : World) (entity : Nat) : World :=
  match subjectPosBounds w entity with
  | none => w
  | some (pos, bounds) =>
    let ourBox := (collidablesExcept w entity).foldl resolveStep (bounds.offset pos)
    let delta : Vec2 := ⟨ourBox.x - bounds.x - pos.x, ourBox.y - bounds.y - pos.y⟩
    World.updatePos w entity (fun p0 => p0 + delta)

/-- `Event` (`src/main.rs:749-754`). -/
inductive Event
  | interactionEvent (entity : Nat) (interaction : InteractableType)
deriving DecidableEq, Repr

/-- The `(Position, Interactable)` query of `Overworld::interact`
(`src/main.rs:452-456`). -/
def interactablesOf (w : World) : List (Nat × Vec2 × Interactable) :=
  w.filterMap (fun p =>
    match p.2.pos, p.2.interactable with
    | some pos, some i => some (p.1, pos, i)
    | _, _ => none)

/-- Ascending-priority comparison used by
`interactables.sort_by_key(|...| priority)` (`src/main.rs:457`). -/
def priorityLE (a b : Nat × Vec2 × Interactable) : Prop :=
  a.2.2.priority ≤ b.2.2.priority

instance : DecidableRel priorityLE :=
  fun a b => inferInstanceAs (Decidable (a.2.2.priority ≤ b.2.2.priority))

instance : IsTotal (Nat × Vec2 × Interactable) priorityLE :=
  ⟨fun a b => Int.le_total a.2.2.priority b.2.2.priority⟩

instance : IsTrans (Nat × Vec2 × Interactable) priorityLE :=
  ⟨fun _ _ _ h h' => le_trans h h'⟩

/-- `Overworld::interact` (`src/main.rs:446-478`): look up the actor's
position (no event when it has none), sort all `(Position, Interactable)`
entities ascending by priority (a stable sort, like Rust's `sort_by_key`),
scan them in reverse (descending priority), and push one `Interaction` event
for the first whose offset bounds contain the actor's position.  The returned
list is what the call appends to `events`. -/
def Overworld.interact (w : World) (entity : Nat) : List Event :=
  match (World.find w entity).bind Ent.pos with
  | none => []
  | some pos =>
    let sorted := (interactablesOf w).insertionSort priorityLE
    match sorted.reverse.find? (fun q => (q.2.2.bounds.offset q.2.1).contains pos) with
    | some q => [Event.interactionEvent q.1 q.2.2.interaction]
    | none => []

/-- `Overworld::tick_animations`, first loop (`src/main.rs:357-366`): each
frame counter increments and wraps to 0 when it reaches/exceeds the length —
note the length is taken from `assets.get(&assets.char_sprite)`, not from
the component's own `animation.id`. -/
def tickFrame (assets : Assets) (a : AnimationComponent) : AnimationComponent :=
  let frame := a.frame + 1
  if frame ≥ (assets.get assets.char_sprite).get_anim_length a.animation then
    { a with frame := 0 }
  else
    { a with frame := frame }

/-- `Overworld::tick_animations`, second loop body (`src/main.rs:368-382`):
the current animation frame's metadata overwrites the sprite's offset and
source rectangle (plus a centering correction).  The `getD` covers the case
where the Rust frame indexing would panic; it is never reached for assets
with a nonempty frame table. -/
def applyAnimToSprite (assets : Assets) (sprite : SpriteComponent)
    (a : AnimationComponent) : SpriteComponent :=
  let frame_info := ((assets.get a.id).get_anim_frame a.animation a.frame).getD ⟨⟨0, 0, 0, 0⟩, ⟨0, 0⟩, ⟨0, 0⟩⟩
  let ox := frame_info.offset.x + a.offset.x
  let oy := frame_info.offset.y + a.offset.y
  let ox := if sprite.centered then ox + (frame_info.src.w - frame_info.source_size.x) / 2 else ox
  let oy := if sprite.centered then oy + (frame_info.src.h - frame_info.source_size.y) / 2 else oy
  { sprite with offset := ⟨ox, oy⟩, source := some frame_info.src }

/-- `Overworld::tick_animations` (`src/main.rs:356-383`): advance every
frame counter, then derive sprite fields for entities that carry both a
sprite and an animation. -/
def Overworld.tick_animations (w : World) (assets : Assets) : World :=
  let w1 : World := w.map (fun p => (p.1, { p.2 with anim := p.2.anim.map (tickFrame assets) }))
  w1.map (fun p =>
    match p.2.sprite, p.2.anim with
    | some s, some a => (p.1, { p.2 with sprite := some (applyAnimToSprite assets s a) })
    | _, _ => p)

/-! ## Concrete instances used by counterexamples and witnesses -/

/-- An entity with no components. -/
def Ent.empty : Ent :=
  { pos := none, sprite := none, collision := none, anim := none,
    interactable := none, follow := none }

/-- A game state mid-dialogue, with text on screen and a parked confirm. -/
def sampleGame : GameState :=
  let d := { Dialogue.init with shown := true, current_text := "HI", current_progress := 2, waiting_for := WaitingFor.confirm 0 }
  { dialogue := d, chans := fun _ => ChanState.pending, next := 1 }

/-- A sprite whose frame table is empty (e.g. a sheet JSON with no frames). -/
def emptySprite : AnimatedSprite := ⟨[], []⟩

/-- A one-frame sprite with a single one-entry animation. -/
def oneFrame : Frame := ⟨⟨0, 0, 16, 16⟩, ⟨0, 0⟩, ⟨16, 16⟩⟩

/-- Sprite used by the C9 witness. -/
def idleSprite : AnimatedSprite := ⟨[oneFrame], [("IDLE", [0])]⟩

/-- The player sprite for the C5 scenario: animation `WALK` has expanded
length 5. -/
def charSpriteC5 : AnimatedSprite := ⟨[oneFrame], [("WALK", [0, 0, 0, 0, 0])]⟩

/-- A second animated sprite (e.g. the ghost): its own `WALK` has expanded
length 2. -/
def otherSpriteC5 : AnimatedSprite := ⟨[oneFrame], [("WALK", [0, 0])]⟩

/-- Asset table for the C5 scenario; `char_sprite` is sprite 0. -/
def assetsC5 : Assets := ⟨[charSpriteC5, otherSpriteC5], 0⟩

/-- An animation component referring to sprite 1 (not the player sprite),
currently at frame 1 of `WALK`. -/
def animC5 : AnimationComponent := ⟨1, "WALK", 1, ⟨0, 0⟩⟩

/-- World with a single animated entity carrying `animC5`. -/
def worldC5 : World := [(0, { Ent.empty with anim := some animC5 })]

/-- Dialogue state used by the C7 witness: `"ABCDE"` fully about to reveal,
with a pending `Auto` continuation on channel 7. -/
def revealDialogue : Dialogue :=
  { Dialogue.init with shown := true, current_text := "ABCDE", current_progress := 4, waiting_for := WaitingFor.auto 7 }

/-- Two-entity collision world: subject box `(0,0,10,10)` overlapping one
other box `(9,0,10,10)` (C3 witness). -/
def overlapWorld : World :=
  [(0, { Ent.empty with pos := some ⟨0, 0⟩, collision := some ⟨0, 0, 10, 10⟩ }),
   (1, { Ent.empty with pos := some ⟨0, 0⟩, collision := some ⟨9, 0, 10, 10⟩ })]

/-- Three-entity collision world (C3 counterexample): the subject's original
box overlaps exactly one other box (entity 1), but the correction against it
pushes the subject into entity 2's box, which is then resolved too. -/
def chainWorld : World :=
  [(0, { Ent.empty with pos := some ⟨0, 0⟩, collision := some ⟨0, 0, 10, 10⟩ }),
   (1, { Ent.empty with pos := some ⟨0, 0⟩, collision := some ⟨9, 0, 10, 10⟩ }),
   (2, { Ent.empty with pos := some ⟨0, 0⟩, collision := some ⟨-(21/2 : F), 0, 10, 10⟩ })]

/-- Collision world whose two boxes are far apart (C4 witness). -/
def apartWorld : World :=
  [(0, { Ent.empty with pos := some ⟨0, 0⟩, collision := some ⟨0, 0, 10, 10⟩ }),
   (1, { Ent.empty with pos := some ⟨100, 0⟩, collision := some ⟨0, 0, 10, 10⟩ })]

/-- The follower entity of the C6 witness: at `(10,0)`, following entity 0
with `max_distance` 4 and `speed` 1. -/
def followerEnt : Ent :=
  { Ent.empty with pos := some ⟨10, 0⟩, follow := some ⟨0, 4, 1⟩ }

/-- Follow world for the C6 witness: target at the origin, follower 10 units
away along x. -/
def followWorld : World :=
  [(0, { Ent.empty with pos := some ⟨0, 0⟩ }), (1, followerEnt)]

/-- The priority-5 lamp interactable of the C8 scenario. -/
def lamp5 : Interactable := ⟨⟨0, 0, 10, 10⟩, InteractableType.Lamp, 5⟩

/-- The priority-1 ghost interactable of the C8 scenario. -/
def ghost1 : Interactable := ⟨⟨0, 0, 10, 10⟩, InteractableType.Ghost, 1⟩

/-- Interaction world for the C8 witness: the actor at `(5,5)` is inside both
interactables' boxes; the lamp has priority 5, the ghost priority 1. -/
def interactWorld : World :=
  [(0, { Ent.empty with pos := some ⟨5, 5⟩ }),
   (1, { Ent.empty with pos := some ⟨0, 0⟩, interactable := some lamp5 }),
   (2, { Ent.empty with pos := some ⟨0, 0⟩, interactable := some ghost1 })]

/-! ## Theorems -/

theorem stepChoiceNav_no_keys (d : Dialogue) (inp : Input) (hu : inp.up = false)
    (hd : inp.down = false) : d.stepChoiceNav inp = d := by
  unfold Dialogue.stepChoiceNav
  cases h : d.choices <;> simp [hu, hd]

theorem update_noInput_confirm (d : Dialogue) (ch : Chans) (c : Nat)
    (h : d.waiting_for = WaitingFor.confirm c) :
    (d.update noInput ch).1.waiting_for = WaitingFor.confirm c ∧
    (d.update noInput ch).2 = ch := by
  obtain ⟨sh, tx, pr, wf, cho, cc, por⟩ := d
  simp only [Dialogue.waiting_for] at h
  subst h
  unfold Dialogue.update
  rw [stepChoiceNav_no_keys _ _ rfl rfl]
  unfold Dialogue.stepProgress Dialogue.stepAuto Dialogue.stepConfirm
  by_cases hp : pr + 1 ≥ tx.length <;> simp [hp, noInput]

/-- Claim C1 (counterexample): `end_dialogue` does not clear the text
buffer — `Dialogue::end_dialogue` (`src/main.rs:923-930`) resets `shown`,
`portrait`, `choices`, `current_choice` and `waiting_for` but leaves
`current_text` (and `current_progress`) untouched, so after force-ending a
dialogue whose buffer holds `"HI"`, the buffer still holds `"HI"`. -/
theorem C1_text_not_cleared :
    (GameState.end_dialogue sampleGame).dialogue.current_text ≠ "" := by decide

/-- Claim C1 (amended): `end_dialogue` resets the shown flag to `false`, the
portrait to `None`, the choice list to `None`, the highlighted choice index
to 0 and the pending continuation to `Nothing`; the text buffer (and reveal
progress) keep their previous contents. -/
theorem C1_end_dialogue_resets (g : GameState) :
    (g.end_dialogue).dialogue.shown = false ∧
    (g.end_dialogue).dialogue.portrait = none ∧
    (g.end_dialogue).dialogue.choices = none ∧
    (g.end_dialogue).dialogue.current_choice = 0 ∧
    (g.end_dialogue).dialogue.waiting_for = WaitingFor.nothing ∧
    (g.end_dialogue).dialogue.current_text = g.dialogue.current_text ∧
    (g.end_dialogue).dialogue.current_progress = g.dialogue.current_progress :=
  ⟨rfl, rfl, rfl, rfl, rfl, rfl, rfl⟩

/-- Claim C10: every call to `show_choice` replaces the choice list with the
given choices and resets the highlighted index to 0 (so the first choice is
initially highlighted regardless of any index selected earlier). -/
theorem C10_show_choice_resets (g : GameState) (choices : List String) :
    ((g.show_choice choices).1).dialogue.choices = some choices ∧
    ((g.show_choice choices).1).dialogue.current_choice = 0 :=
  ⟨rfl, rfl⟩

/-- Claim C2: if a script is suspended on the confirm receiver returned by
`show_text` and the dialogue is force-ended after any number of
no-confirm-input frames, the receiver resolves to `Err(Canceled)` — never to
a successful confirm — and `wrap_dialogue` maps that error to `()` without
panicking. -/
theorem C2_cancelled_await_errors (g : GameState) (t : String) (k : Nat) :
    recv (GameState.end_dialogue ((fun s => GameState.tick s noInput)^[k] (g.show_text t).1)).chans
        (g.show_text t).2 = some (Except.error Canceled.canceled) ∧
    (∀ v, recv (GameState.end_dialogue ((fun s => GameState.tick s noInput)^[k] (g.show_text t).1)).chans
        (g.show_text t).2 ≠ some (Except.ok v)) ∧
    wrap_dialogue (e := Canceled) (Except.error Canceled.canceled) = () := by
  have key : ∀ n : Nat, ∀ s : GameState, s.dialogue.waiting_for = WaitingFor.confirm (g.show_text t).2 →
      s.chans (g.show_text t).2 = ChanState.pending →
      ((fun s => GameState.tick s noInput)^[n] s).dialogue.waiting_for = WaitingFor.confirm (g.show_text t).2 ∧
      ((fun s => GameState.tick s noInput)^[n] s).chans (g.show_text t).2 = ChanState.pending := by
    intro n
    induction n with
    | zero => intro s h1 h2; exact ⟨h1, h2⟩
    | succ m ih =>
      intro s h1 h2
      rw [Function.iterate_succ_apply]
      apply ih
      · exact (update_noInput_confirm s.dialogue s.chans _ h1).1
      · rw [show (GameState.tick s noInput).chans = (s.dialogue.update noInput s.chans).2 from rfl,
          (update_noInput_confirm s.dialogue s.chans _ h1).2]
        exact h2
  have h0 : ((g.show_text t).1).dialogue.waiting_for = WaitingFor.confirm (g.show_text t).2 := rfl
  have h0' : ((g.show_text t).1).chans (g.show_text t).2 = ChanState.pending := by
    show GameState.allocChan ((g.dialogue.set_text t).waiting_for.drop g.chans) g.next g.next = ChanState.pending
    unfold GameState.allocChan
    exact if_pos rfl
  obtain ⟨hw, hc⟩ := key k _ h0 h0'
  set s2 := (fun s => GameState.tick s noInput)^[k] (g.show_text t).1 with hs2
  have hclosed : (GameState.end_dialogue s2).chans (g.show_text t).2 = ChanState.closed := by
    show (s2.dialogue.waiting_for.drop s2.chans) _ = _
    rw [hw]
    unfold WaitingFor.drop dropSender
    simp [hc]
  refine ⟨?_, ?_, rfl⟩
  · unfold recv; rw [hclosed]
  · intro v; unfold recv; rw [hclosed]; simp

theorem stepChoiceNav_text (d : Dialogue) (inp : Input) :
    (d.stepChoiceNav inp).current_text = d.current_text := by
  unfold Dialogue.stepChoiceNav
  cases d.choices <;> dsimp only <;> split_ifs <;> rfl

theorem stepChoiceNav_progress (d : Dialogue) (inp : Input) :
    (d.stepChoiceNav inp).current_progress = d.current_progress := by
  unfold Dialogue.stepChoiceNav
  cases d.choices <;> dsimp only <;> split_ifs <;> rfl

theorem stepAuto_text (d : Dialogue) (ch : Chans) :
    (d.stepAuto ch).1.current_text = d.current_text := by
  unfold Dialogue.stepAuto
  split_ifs <;> cases d.waiting_for <;> rfl

theorem stepAuto_progress (d : Dialogue) (ch : Chans) :
    (d.stepAuto ch).1.current_progress = d.current_progress := by
  unfold Dialogue.stepAuto
  split_ifs <;> cases d.waiting_for <;> rfl

theorem stepConfirm_text (d : Dialogue) (inp : Input) (ch : Chans) :
    (d.stepConfirm inp ch).1.current_text = d.current_text := by
  unfold Dialogue.stepConfirm
  split_ifs <;> cases d.waiting_for <;> rfl

theorem stepConfirm_progress (d : Dialogue) (inp : Input) (ch : Chans) :
    (d.stepConfirm inp ch).1.current_progress = d.current_progress := by
  unfold Dialogue.stepConfirm
  split_ifs <;> cases d.waiting_for <;> rfl

theorem update_text (d : Dialogue) (inp : Input) (ch : Chans) :
    (d.update inp ch).1.current_text = d.current_text := by
  unfold Dialogue.update
  rw [stepConfirm_text, stepAuto_text, stepChoiceNav_text]
  rfl

theorem update_progress (d : Dialogue) (inp : Input) (ch : Chans) :
    (d.update inp ch).1.current_progress = d.current_progress + 1 := by
  unfold Dialogue.update
  rw [stepConfirm_progress, stepAuto_progress, stepChoiceNav_progress]
  rfl

theorem iter_noInput_state (k : Nat) : ∀ (d : Dialogue) (ch : Chans),
    ((fun q : Dialogue × Chans => q.1.update noInput q.2)^[k] (d, ch)).1.current_text = d.current_text ∧
    ((fun q : Dialogue × Chans => q.1.update noInput q.2)^[k] (d, ch)).1.current_progress = d.current_progress + k := by
  induction k with
  | zero => intro d ch; exact ⟨rfl, rfl⟩
  | succ m ih =>
    intro d ch
    rw [Function.iterate_succ_apply]
    refine ⟨((ih (d.update noInput ch).1 (d.update noInput ch).2).1).trans (update_text d noInput ch), ?_⟩
    have h2 := (ih (d.update noInput ch).1 (d.update noInput ch).2).2
    rw [update_progress d noInput ch] at h2
    exact h2.trans (by omega)

/-- Claim C7: `set_text` resets reveal progress to 0; after `k` no-input
update ticks exactly `min k |t|` characters are revealed; once progress
reaches/exceeds the text length a pending `Auto` continuation fires on that
very tick with no player input (and not before); a pending `Confirm` or
`Choice` continuation survives any no-input tick untouched and fires exactly
on a confirm-input tick. -/
theorem C7_dialogue_reveal :
    (∀ (d : Dialogue) (t : String), (d.set_text t).current_progress = 0) ∧
    (∀ (d : Dialogue) (ch : Chans) (t : String) (k : Nat),
      ((fun q : Dialogue × Chans => q.1.update noInput q.2)^[k] (d.set_text t, ch)).1.current_progress = k ∧
      ((fun q : Dialogue × Chans => q.1.update noInput q.2)^[k] (d.set_text t, ch)).1.revealedChars = min k t.length) ∧
    (∀ (d : Dialogue) (ch : Chans) (c : Nat), d.waiting_for = WaitingFor.auto c →
      (d.current_progress + 1 ≥ d.current_text.length →
        (d.update noInput ch).1.waiting_for = WaitingFor.nothing ∧
        (d.update noInput ch).2 c = ChanState.sent 0) ∧
      (d.current_progress + 1 < d.current_text.length →
        (d.update noInput ch).1.waiting_for = WaitingFor.auto c ∧
        (d.update noInput ch).2 = ch)) ∧
    (∀ (d : Dialogue) (ch : Chans) (c : Nat),
      (d.waiting_for = WaitingFor.confirm c →
        (d.update noInput ch).1.waiting_for = WaitingFor.confirm c ∧ (d.update noInput ch).2 = ch) ∧
      (d.waiting_for = WaitingFor.choice c →
        (d.update noInput ch).1.waiting_for = WaitingFor.choice c ∧ (d.update noInput ch).2 = ch) ∧
      (d.waiting_for = WaitingFor.confirm c →
        (d.update confirmInput ch).1.waiting_for = WaitingFor.nothing ∧
        (d.update confirmInput ch).2 c = ChanState.sent 0) ∧
      (d.waiting_for = WaitingFor.choice c →
        (d.update confirmInput ch).1.waiting_for = WaitingFor.nothing ∧
        (d.update confirmInput ch).1.choices = none ∧
        (d.update confirmInput ch).2 c = ChanState.sent d.current_choice)) := by
  refine ⟨fun d t => rfl, ?_, ?_, ?_⟩
  · intro d ch t k
    obtain ⟨htext, hprog⟩ := iter_noInput_state k (d.set_text t) ch
    have h0 : (d.set_text t).current_progress = 0 := rfl
    have ht : (d.set_text t).current_text = t := rfl
    rw [h0] at hprog
    refine ⟨by simpa using hprog, ?_⟩
    unfold Dialogue.revealedChars
    rw [htext, hprog, ht]
    simp [Nat.min_comm]
  · intro d ch c hw
    obtain ⟨sh, tx, pr, wf, cho, cc, por⟩ := d
    simp only [Dialogue.waiting_for] at hw
    subst hw
    constructor
    · intro hlen
      unfold Dialogue.update
      rw [stepChoiceNav_no_keys _ _ rfl rfl]
      unfold Dialogue.stepProgress Dialogue.stepAuto Dialogue.stepConfirm
      simp only [Dialogue.current_progress, Dialogue.current_text] at hlen ⊢
      simp [hlen, noInput, sendChan]
    · intro hlen
      simp only [Dialogue.current_progress, Dialogue.current_text] at hlen
      have hlen' : ¬ (pr + 1 ≥ tx.length) := by omega
      unfold Dialogue.update
      rw [stepChoiceNav_no_keys _ _ rfl rfl]
      unfold Dialogue.stepProgress Dialogue.stepAuto Dialogue.stepConfirm
      simp only [Dialogue.current_progress, Dialogue.current_text] at hlen' ⊢
      simp [hlen', noInput]
  · intro d ch c
    obtain ⟨sh, tx, pr, wf, cho, cc, por⟩ := d
    refine ⟨?_, ?_, ?_, ?_⟩ <;> intro hw <;> simp only [Dialogue.waiting_for] at hw <;> subst hw <;>
      unfold Dialogue.update <;> rw [stepChoiceNav_no_keys _ _ rfl rfl] <;>
      unfold Dialogue.stepProgress Dialogue.stepAuto Dialogue.stepConfirm <;>
      by_cases hp : pr + 1 ≥ tx.length <;>
      simp_all [noInput, confirmInput, sendChan]

/-- Claim C7 (witness): with `"ABCDE"` at progress 4 and a pending `Auto`
continuation on channel 7, one no-input tick fires the auto-advance. -/
theorem C7_dialogue_reveal_witness :
    (revealDialogue.update noInput (fun _ => ChanState.pending)).1.waiting_for = WaitingFor.nothing ∧
    (revealDialogue.update noInput (fun _ => ChanState.pending)).2 7 = ChanState.sent 0 :=
  (C7_dialogue_reveal.2.2.1 revealDialogue (fun _ => ChanState.pending) 7 rfl).1 (by decide)

/-- Claim C9 (counterexample): for an animated sprite whose frame table is
empty, `get_anim_frame` does not return a frame 0 — the Rust indexing
`self.info.frames[frame_id]` panics (embedded as `none`), so the query is
not error-free for every sprite. -/
theorem C9_empty_frames_cex :
    AnimatedSprite.get_anim_frame emptySprite "WALK" 0 = none := rfl

theorem lookup_mem {α β : Type} [BEq α] [LawfulBEq α] (l : List (α × β)) (a : α) (b : β)
    (h : l.lookup a = some b) : (a, b) ∈ l := by
  induction l with
  | nil => simp [List.lookup] at h
  | cons hd tl ih =>
    obtain ⟨k, v⟩ := hd
    simp only [List.lookup] at h
    cases he : (a == k) with
    | true =>
      simp only [he] at h
      obtain rfl : v = b := by simpa using h
      obtain rfl : a = k := eq_of_beq he
      exact List.mem_cons_self _ _
    | false =>
      simp only [he] at h
      exact List.mem_cons_of_mem _ (ih h)

/-- Claim C9 (amended): for every animated sprite whose frame table is
nonempty (with frame 0 being `f0`) and whose expanded animation sequences
only hold in-range frame indices — the invariant established by a successful
sheet load — `get_anim_frame` with an unknown animation name or an
out-of-range frame index returns frame 0, `get_anim_length` of an unknown
name returns 0, and no query errors for any name/index. -/
theorem C9_lookup_fallback (s : AnimatedSprite) (f0 : Frame)
    (h0 : s.frames.get? 0 = some f0)
    (hvalid : ∀ pr ∈ s.animations, ∀ i ∈ pr.2, i < s.frames.length) :
    (∀ anim k, s.animations.lookup anim = none →
      s.get_anim_frame anim k = some f0 ∧ s.get_anim_length anim = 0) ∧
    (∀ anim l k, s.animations.lookup anim = some l → l.length ≤ k →
      s.get_anim_frame anim k = some f0) ∧
    (∀ anim k, ∃ fr, s.get_anim_frame anim k = some fr) := by
  refine ⟨?_, ?_, ?_⟩
  · intro anim k hnone
    constructor
    · unfold AnimatedSprite.get_anim_frame
      rw [hnone]
      simpa using h0
    · unfold AnimatedSprite.get_anim_length
      rw [hnone]
      rfl
  · intro anim l k hsome hlen
    have hk : l.get? k = none := List.get?_eq_none.mpr hlen
    unfold AnimatedSprite.get_anim_frame
    rw [hsome]
    simp only [List.get?_eq_getElem?] at hk h0
    simp [hk, h0]
  · intro anim k
    unfold AnimatedSprite.get_anim_frame
    cases hl : s.animations.lookup anim with
    | none =>
      refine ⟨f0, ?_⟩
      simp only [List.get?_eq_getElem?] at h0
      simp [h0]
    | some l =>
      cases hk : l.get? k with
      | none =>
        refine ⟨f0, ?_⟩
        simp only [List.get?_eq_getElem?] at hk h0
        simp [hk, h0]
      | some i =>
        have hi : i ∈ l := List.get?_mem hk
        have hmem : (anim, l) ∈ s.animations := lookup_mem _ _ _ hl
        have hlt : i < s.frames.length := hvalid _ hmem i hi
        obtain ⟨fr, hfr⟩ : ∃ fr, s.frames.get? i = some fr := by
          rw [List.get?_eq_get hlt]
          exact ⟨_, rfl⟩
        refine ⟨fr, ?_⟩
        simp only [List.get?_eq_getElem?] at hk hfr
        simp [hk, hfr]

/-- Claim C9 (witness): the amended theorem applied to a concrete one-frame
sprite: a query for the unknown animation `"WALK"` returns frame 0 and
length 0. -/
theorem C9_lookup_fallback_witness :
    AnimatedSprite.get_anim_frame idleSprite "WALK" 3 = some oneFrame ∧
    AnimatedSprite.get_anim_length idleSprite "WALK" = 0 :=
  (C9_lookup_fallback idleSprite oneFrame rfl (by decide) |>.1) "WALK" 3 rfl

/-- Claim C5 (code bug): the wraparound length in `tick_animations`
(`src/main.rs:359-362`) is taken from `assets.get(&assets.char_sprite)`
instead of the component's own `animation.id`.  For an entity animated by
sprite 1 (own `WALK` length 2, player-sprite `WALK` length 5) at frame 1,
one tick leaves the counter at 2 — whereas the claimed `k mod L` law for the
entity's own sprite requires a wrap to 0. -/
theorem C5_wrap_uses_char_sprite_length :
    ((World.find (Overworld.tick_animations worldC5 assetsC5) 0).bind Ent.anim).map
        AnimationComponent.frame = some 2 ∧
    AnimatedSprite.get_anim_length otherSpriteC5 "WALK" = 2 ∧
    (animC5.frame + 1) % AnimatedSprite.get_anim_length otherSpriteC5 "WALK" = 0 := by
  refine ⟨?_, rfl, rfl⟩
  rfl

theorem find_cons_hit (i id : Nat) (e : Ent) (tl : World) (h : (i == id) = true) :
    World.find ((i, e) :: tl) id = some e := by
  simp [World.find, h]

theorem find_cons_miss (i id : Nat) (e : Ent) (tl : World) (h : (i == id) = false) :
    World.find ((i, e) :: tl) id = World.find tl id := by
  simp [World.find, h]

theorem updatePos_cons (i : Nat) (e : Ent) (tl : World) (target : Nat) (f : Vec2 → Vec2) :
    World.updatePos ((i, e) :: tl) target f =
      (if (i == target) = true then (i, { e with pos := e.pos.map f }) else (i, e)) ::
        World.updatePos tl target f := rfl

theorem find_updatePos (w : World) (target id : Nat) (f : Vec2 → Vec2) :
    World.find (World.updatePos w target f) id =
      (World.find w id).map (fun e => if id = target then { e with pos := e.pos.map f } else e) := by
  induction w with
  | nil => rfl
  | cons hd tl ih =>
    obtain ⟨i, e⟩ := hd
    rw [updatePos_cons]
    by_cases hid : (i == id) = true
    · have hid' : i = id := by simpa using hid
      by_cases hit : (i == target) = true
      · have hit' : i = target := by simpa using hit
        rw [if_pos hit, find_cons_hit _ _ _ _ hid, find_cons_hit _ _ _ _ hid]
        simp only [Option.map_some']
        rw [if_pos (hid' ▸ hit')]
      · have hit' : ¬ i = target := by simpa using hit
        rw [if_neg hit, find_cons_hit _ _ _ _ hid, find_cons_hit _ _ _ _ hid]
        simp only [Option.map_some']
        rw [if_neg (fun h => hit' (hid'.trans h))]
    · have hid0 : (i == id) = false := by simpa using hid
      by_cases hit : (i == target) = true
      · rw [if_pos hit, find_cons_miss _ _ _ _ hid0, find_cons_miss _ _ _ _ hid0]
        exact ih
      · rw [if_neg hit, find_cons_miss _ _ _ _ hid0, find_cons_miss _ _ _ _ hid0]
        exact ih

theorem updatePos_congr_id (w : World) (id : Nat) (f : Vec2 → Vec2) (hf : ∀ v, f v = v) :
    World.updatePos w id f = w := by
  unfold World.updatePos
  induction w with
  | nil => rfl
  | cons p tl ih =>
    rw [List.map_cons, ih]
    congr 1
    by_cases hb : (p.1 == id) = true
    · rw [if_pos hb]
      obtain ⟨i, e⟩ := p
      obtain ⟨ep, es, ec, ea, ei, ef⟩ := e
      cases ep <;> simp [hf]
    · rw [if_neg hb]

theorem foldl_resolveStep_no_overlap (l : List Rect) (box : Rect)
    (h : ∀ r ∈ l, box.overlaps r = false) : l.foldl resolveStep box = box := by
  induction l with
  | nil => rfl
  | cons r tl ih =>
    rw [List.foldl_cons]
    have h1 : resolveStep box r = box := by
      unfold resolveStep
      simp [h r (List.mem_cons_self _ _)]
    rw [h1]
    exact ih (fun r' hr' => h r' (List.mem_cons_of_mem _ hr'))

/-- Claim C4: when the subject's world-space box overlaps no other entity's
box, `resolve_penetrations` is a no-op on the whole world; and regardless of
overlaps, every entity other than the subject keeps its entry (in particular
its `Position`) unchanged. -/
theorem C4_no_overlap_noop (w : World) (entity : Nat) :
    (∀ pos bounds, subjectPosBounds w entity = some (pos, bounds) →
      (∀ r ∈ collidablesExcept w entity, (bounds.offset pos).overlaps r = false) →
      Overworld.resolve_penetrations w entity = w) ∧
    (∀ id, id ≠ entity →
      World.find (Overworld.resolve_penetrations w entity) id = World.find w id) := by
  constructor
  · intro pos bounds hsub hno
    unfold Overworld.resolve_penetrations
    rw [hsub]
    have hfold : (collidablesExcept w entity).foldl resolveStep (bounds.offset pos) =
        bounds.offset pos := foldl_resolveStep_no_overlap _ _ hno
    simp only [hfold]
    apply updatePos_congr_id
    intro v
    obtain ⟨vx, vy⟩ := v
    simp only [Vec2.add_def, Rect.offset, Vec2.mk.injEq]
    constructor <;> ring
  · intro id hid
    unfold Overworld.resolve_penetrations
    cases hsub : subjectPosBounds w entity with
    | none => rfl
    | some pb =>
      obtain ⟨pos, bounds⟩ := pb
      rw [find_updatePos]
      simp [hid]

/-- Claim C4 (witness): in the two-entity world whose boxes are 100 units
apart, resolving penetrations for entity 0 leaves the world unchanged. -/
theorem C4_no_overlap_noop_witness :
    Overworld.resolve_penetrations apartWorld 0 = apartWorld :=
  (C4_no_overlap_noop apartWorld 0).1 ⟨0, 0⟩ ⟨0, 0, 10, 10⟩ rfl (by
    simp only [collidablesExcept, apartWorld, Ent.empty, List.filterMap_cons]
    norm_num [Rect.overlaps, Rect.offset, Rect.left, Rect.right, Rect.top, Rect.bottom])

theorem subjectPosBounds_spec (w : World) (entity : Nat) (pos : Vec2) (bounds : Rect)
    (h : subjectPosBounds w entity = some (pos, bounds)) :
    ∃ e, World.find w entity = some e ∧ e.pos = some pos ∧ e.collision = some bounds := by
  unfold subjectPosBounds at h
  cases hf : World.find w entity with
  | none => rw [hf] at h; simp at h
  | some e =>
    rw [hf] at h
    simp only [Option.some_bind] at h
    cases hp : e.pos with
    | none => rw [hp] at h; simp at h
    | some p =>
      rw [hp] at h
      simp only [Option.some_bind] at h
      cases hc : e.collision with
      | none => rw [hc] at h; simp at h
      | some bb =>
        rw [hc] at h
        simp at h
        exact ⟨e, rfl, by rw [hp, h.1], by rw [hc, h.2]⟩

theorem resolve_eq_updatePos (w : World) (entity : Nat) (pos : Vec2) (bounds : Rect)
    (hsub : subjectPosBounds w entity = some (pos, bounds)) :
    Overworld.resolve_penetrations w entity =
      World.updatePos w entity (fun p0 => p0 +
        ⟨((collidablesExcept w entity).foldl resolveStep (bounds.offset pos)).x - bounds.x - pos.x,
         ((collidablesExcept w entity).foldl resolveStep (bounds.offset pos)).y - bounds.y - pos.y⟩) := by
  unfold Overworld.resolve_penetrations
  rw [hsub]

theorem stepDelta_spec (box b : Rect) (hb : box.overlaps b = true) :
    ((stepDelta box b).y = 0 ∧
      |(stepDelta box b).x| = min |b.left - box.right| |b.right - box.left| ∧
      min |b.left - box.right| |b.right - box.left| ≤
        min |b.top - box.bottom| |b.bottom - box.top|) ∨
    ((stepDelta box b).x = 0 ∧
      |(stepDelta box b).y| = min |b.top - box.bottom| |b.bottom - box.top| ∧
      min |b.top - box.bottom| |b.bottom - box.top| <
        min |b.left - box.right| |b.right - box.left|) := by
  unfold stepDelta resolveStep
  simp only [hb, eq_self_iff_true, if_true]
  rcases le_or_lt |b.left - box.right| |b.right - box.left| with hLR | hLR <;>
    rcases le_or_lt |b.top - box.bottom| |b.bottom - box.top| with hUD | hUD
  · rw [if_pos hLR, if_pos hUD, min_eq_left hLR, min_eq_left hUD]
    by_cases hM : |b.left - box.right| ≤ |b.top - box.bottom|
    · rw [if_pos hM]
      exact Or.inl ⟨by simp, by congr 1; ring, hM⟩
    · rw [if_neg hM]
      exact Or.inr ⟨by simp, by congr 1; ring, lt_of_not_le hM⟩
  · rw [if_pos hLR, if_neg (not_le.mpr hUD), min_eq_left hLR, min_eq_right hUD.le]
    by_cases hM : |b.left - box.right| ≤ |b.bottom - box.top|
    · rw [if_pos hM]
      exact Or.inl ⟨by simp, by congr 1; ring, hM⟩
    · rw [if_neg hM]
      exact Or.inr ⟨by simp, by congr 1; ring, lt_of_not_le hM⟩
  · rw [if_neg (not_le.mpr hLR), if_pos hUD, min_eq_right hLR.le, min_eq_left hUD]
    by_cases hM : |b.right - box.left| ≤ |b.top - box.bottom|
    · rw [if_pos hM]
      exact Or.inl ⟨by simp, by congr 1; ring, hM⟩
    · rw [if_neg hM]
      exact Or.inr ⟨by simp, by congr 1; ring, lt_of_not_le hM⟩
  · rw [if_neg (not_le.mpr hLR), if_neg (not_le.mpr hUD), min_eq_right hLR.le, min_eq_right hUD.le]
    by_cases hM : |b.right - box.left| ≤ |b.bottom - box.top|
    · rw [if_pos hM]
      exact Or.inl ⟨by simp, by congr 1; ring, hM⟩
    · rw [if_neg hM]
      exact Or.inr ⟨by simp, by congr 1; ring, lt_of_not_le hM⟩

/-- Claim C3 (amended): when the subject's original box overlaps exactly one
other collidable box `b` — and the corrected box does not overlap any of the
boxes processed after `b` — `resolve_penetrations` changes the subject's
position by the single-step delta of `b`: zero on one axis; on the other
axis its magnitude is the smaller of that axis's two candidate push
distances; the corrected axis is the one whose candidate has smaller
absolute magnitude, an exact tie resolving to the horizontal axis. -/
theorem C3_single_axis_correction (w : World) (entity : Nat) (pos : Vec2) (bounds : Rect)
    (l₁ l₂ : List Rect) (b : Rect)
    (hsub : subjectPosBounds w entity = some (pos, bounds))
    (hdecomp : collidablesExcept w entity = l₁ ++ b :: l₂)
    (h1 : ∀ r ∈ l₁, (bounds.offset pos).overlaps r = false)
    (hb : (bounds.offset pos).overlaps b = true)
    (h2 : ∀ r ∈ l₂, (bounds.offset pos).overlaps r = false ∧
        (resolveStep (bounds.offset pos) b).overlaps r = false) :
    ((World.find (Overworld.resolve_penetrations w entity) entity).bind Ent.pos =
        some (pos + stepDelta (bounds.offset pos) b)) ∧
    (((stepDelta (bounds.offset pos) b).y = 0 ∧
        |(stepDelta (bounds.offset pos) b).x| =
          min |b.left - (bounds.offset pos).right| |b.right - (bounds.offset pos).left| ∧
        min |b.left - (bounds.offset pos).right| |b.right - (bounds.offset pos).left| ≤
          min |b.top - (bounds.offset pos).bottom| |b.bottom - (bounds.offset pos).top|) ∨
      ((stepDelta (bounds.offset pos) b).x = 0 ∧
        |(stepDelta (bounds.offset pos) b).y| =
          min |b.top - (bounds.offset pos).bottom| |b.bottom - (bounds.offset pos).top| ∧
        min |b.top - (bounds.offset pos).bottom| |b.bottom - (bounds.offset pos).top| <
          min |b.left - (bounds.offset pos).right| |b.right - (bounds.offset pos).left|)) := by
  refine ⟨?_, stepDelta_spec _ _ hb⟩
  obtain ⟨e, hfind, hpos, hcol⟩ := subjectPosBounds_spec w entity pos bounds hsub
  have hfold : (collidablesExcept w entity).foldl resolveStep (bounds.offset pos) =
      resolveStep (bounds.offset pos) b := by
    rw [hdecomp, List.foldl_append, foldl_resolveStep_no_overlap l₁ _ h1, List.foldl_cons,
      foldl_resolveStep_no_overlap l₂ _ (fun r hr => (h2 r hr).2)]
  rw [resolve_eq_updatePos w entity pos bounds hsub]
  rw [hfold, find_updatePos, hfind]
  simp only [Option.map_some', if_pos rfl, Option.some_bind]
  show ({ e with pos := e.pos.map _ } : Ent).pos = _
  rw [hpos]
  simp only [Option.map_some']
  refine congrArg some ?_
  obtain ⟨px, py⟩ := pos
  simp only [Vec2.add_def, stepDelta, Rect.offset, Vec2.mk.injEq]
  constructor <;> ring

/-- Claim C3 (counterexample): in `chainWorld` the subject's original box
overlaps exactly one other box, `(9,0,10,10)` (the box at `(-21/2,0)` does
not overlap it) — yet the resolved position differs by `(-1/2, 0)`, whose
magnitude `1/2` is *not* the smaller candidate push distance `1` of the
single overlapping box: the `-1` push against the first box lands the
subject inside the third entity's box, which is then resolved too
(`src/main.rs:302-319` mutates `our_box` inside the loop). -/
theorem C3_secondary_overlap_cex :
    collidablesExcept chainWorld 0 = [⟨9, 0, 10, 10⟩, ⟨-(21/2 : F), 0, 10, 10⟩] ∧
    (Rect.offset ⟨0, 0, 10, 10⟩ ⟨0, 0⟩).overlaps ⟨9, 0, 10, 10⟩ = true ∧
    (Rect.offset ⟨0, 0, 10, 10⟩ ⟨0, 0⟩).overlaps ⟨-(21/2 : F), 0, 10, 10⟩ = false ∧
    (World.find (Overworld.resolve_penetrations chainWorld 0) 0).bind Ent.pos
      = some ⟨-(1/2 : F), 0⟩ ∧
    |(-(1/2) : F)| ≠
      min |(⟨9, 0, 10, 10⟩ : Rect).left - (Rect.offset ⟨0, 0, 10, 10⟩ ⟨0, 0⟩).right|
        |(⟨9, 0, 10, 10⟩ : Rect).right - (Rect.offset ⟨0, 0, 10, 10⟩ ⟨0, 0⟩).left| := by
  have hcol : collidablesExcept chainWorld 0 = [⟨9, 0, 10, 10⟩, ⟨-(21/2 : F), 0, 10, 10⟩] := by
    simp [collidablesExcept, chainWorld, Ent.empty, Rect.offset]
  have s1 : resolveStep (Rect.offset ⟨0, 0, 10, 10⟩ ⟨0, 0⟩) ⟨9, 0, 10, 10⟩ = ⟨-1, 0, 10, 10⟩ := by
    norm_num [resolveStep, Rect.overlaps, Rect.offset, Rect.left, Rect.right, Rect.top, Rect.bottom]
  have s2 : resolveStep ⟨-1, 0, 10, 10⟩ ⟨-(21/2 : F), 0, 10, 10⟩ = ⟨-(1/2 : F), 0, 10, 10⟩ := by
    norm_num [resolveStep, Rect.overlaps, Rect.offset, Rect.left, Rect.right, Rect.top, Rect.bottom,
      abs_div]
  have hfold : (collidablesExcept chainWorld 0).foldl resolveStep (Rect.offset ⟨0, 0, 10, 10⟩ ⟨0, 0⟩)
      = ⟨-(1/2 : F), 0, 10, 10⟩ := by
    rw [hcol, List.foldl_cons, s1, List.foldl_cons, s2, List.foldl_nil]
  refine ⟨hcol, ?_, ?_, ?_, ?_⟩
  · norm_num [Rect.overlaps, Rect.offset, Rect.left, Rect.right, Rect.top, Rect.bottom]
  · norm_num [Rect.overlaps, Rect.offset, Rect.left, Rect.right, Rect.top, Rect.bottom]
  · rw [resolve_eq_updatePos chainWorld 0 ⟨0, 0⟩ ⟨0, 0, 10, 10⟩ rfl]
    rw [find_updatePos]
    rw [show World.find chainWorld 0 =
      some { Ent.empty with pos := some ⟨0, 0⟩, collision := some ⟨0, 0, 10, 10⟩ } from rfl]
    simp only [Option.map_some', if_pos rfl, Option.some_bind, hfold]
    norm_num [Ent.empty, Vec2.add_def]
  · norm_num [Rect.left, Rect.right, Rect.offset, abs_div]

/-- Claim C3 (witness): in the two-entity world, the subject at the origin
overlapping only `(9,0,10,10)` is pushed left by exactly 1 (the smaller
horizontal candidate; both vertical candidates have magnitude 10). -/
theorem C3_single_axis_correction_witness :
    (World.find (Overworld.resolve_penetrations overlapWorld 0) 0).bind Ent.pos = some ⟨-1, 0⟩ :=
  ((C3_single_axis_correction overlapWorld 0 ⟨0, 0⟩ ⟨0, 0, 10, 10⟩ [] [] ⟨9, 0, 10, 10⟩ rfl
      (by simp [collidablesExcept, overlapWorld, Ent.empty, Rect.offset])
      (by simp)
      (by norm_num [Rect.overlaps, Rect.offset, Rect.left, Rect.right, Rect.top, Rect.bottom])
      (by simp)).1).trans (by
        norm_num [stepDelta, resolveStep, Rect.overlaps, Rect.offset, Rect.left, Rect.right,
          Rect.top, Rect.bottom, Vec2.add_def])

theorem followEmit_fst (w : World) (p : Nat × Ent) (q : Nat × Vec2)
    (h : followEmit w p = some q) : q.1 = p.1 := by
  unfold followEmit at h
  split at h
  · split at h
    · obtain ⟨a, ha, hq⟩ := Option.map_eq_some'.mp h
      cases hq
      rfl
    · exact Option.noConfusion h
  · exact Option.noConfusion h

theorem filterMap_keys_ne {β : Type} (g : Nat × Ent → Option (Nat × β))
    (hg : ∀ p q, g p = some q → q.1 = p.1) (l : List (Nat × Ent)) (id : Nat)
    (h : ∀ p ∈ l, p.1 ≠ id) : ∀ q ∈ l.filterMap g, q.1 ≠ id := by
  intro q hq
  obtain ⟨p, hp, hgp⟩ := List.mem_filterMap.mp hq
  rw [hg p q hgp]
  exact h p hp

theorem find_fold_updatePos_ne (adjs : List (Nat × Vec2)) (w : World) (id : Nat)
    (h : ∀ a ∈ adjs, a.1 ≠ id) :
    World.find (adjs.foldl (fun w' pa => World.updatePos w' pa.1 (· + pa.2)) w) id =
      World.find w id := by
  induction adjs generalizing w with
  | nil => rfl
  | cons a rest ih =>
    rw [List.foldl_cons, ih _ (fun b hb => h b (List.mem_cons_of_mem _ hb)), find_updatePos]
    have hne : ¬ id = a.1 := fun he => h a (List.mem_cons_self _ _) he.symm
    simp [hne]

theorem find_fold_updatePos_single (pre post : List (Nat × Vec2)) (w : World) (id : Nat) (v : Vec2)
    (hpre : ∀ a ∈ pre, a.1 ≠ id) (hpost : ∀ a ∈ post, a.1 ≠ id) :
    World.find ((pre ++ (id, v) :: post).foldl
        (fun w' pa => World.updatePos w' pa.1 (· + pa.2)) w) id =
      (World.find w id).map (fun e => { e with pos := e.pos.map (· + v) }) := by
  rw [List.foldl_append, List.foldl_cons, find_fold_updatePos_ne post _ _ hpost,
    find_updatePos, find_fold_updatePos_ne pre w id hpre]
  simp

theorem find_append_first (u₁ u₂ : World) (id : Nat) (e : Ent)
    (h : id ∉ u₁.map Prod.fst) :
    World.find (u₁ ++ (id, e) :: u₂) id = some e := by
  induction u₁ with
  | nil => exact find_cons_hit _ _ _ _ (by simp)
  | cons p tl ih =>
    obtain ⟨i, e'⟩ := p
    have hne : (i == id) = false := by
      refine beq_eq_false_iff_ne.mpr ?_
      intro hcontra
      refine h ?_
      rw [List.map_cons]
      exact hcontra ▸ List.mem_cons_self _ _
    rw [List.cons_append, find_cons_miss _ _ _ _ hne]
    refine ih ?_
    intro hcontra
    exact h (by rw [List.map_cons]; exact List.mem_cons_of_mem _ hcontra)

theorem nodup_keys_split (u₁ u₂ : World) (id : Nat) (e : Ent)
    (h : ((u₁ ++ (id, e) :: u₂).map Prod.fst).Nodup) :
    id ∉ u₁.map Prod.fst ∧ id ∉ u₂.map Prod.fst := by
  rw [List.map_append, List.map_cons, List.nodup_append] at h
  obtain ⟨h1, h2, hdisj⟩ := h
  exact ⟨fun hmem => hdisj hmem (List.mem_cons_self _ _), (List.nodup_cons.mp h2).1⟩

theorem followEmit_eval (w : World) (id : Nat) (e : Ent) (pos tp : Vec2) (f : FollowComponent)
    (hpos : e.pos = some pos) (hfol : e.follow = some f)
    (ht : (World.find w f.target).bind Ent.pos = some tp) :
    followEmit w (id, e) = (followAdjustment pos tp f).map (fun a => (id, a)) := by
  unfold followEmit
  simp only [hpos, hfol, ht]

theorem followEmit_eval_none (w : World) (id : Nat) (e : Ent) (pos : Vec2) (f : FollowComponent)
    (hpos : e.pos = some pos) (hfol : e.follow = some f)
    (ht : (World.find w f.target).bind Ent.pos = none) :
    followEmit w (id, e) = none := by
  unfold followEmit
  simp only [hpos, hfol, ht]

/-- Claim C6: for a follower with `Position` and `FollowComponent` (in a
world with distinct entity ids): if the target is missing or positionless
the follower is skipped silently; if the Manhattan separation is within
`max_distance` its position is unchanged by a follow tick; if it exceeds
`max_distance` the follower moves only along the axis of strictly larger
absolute delta, by exactly `min(|delta|, speed)` in the sign of that
delta. -/
theorem C6_follow_threshold (w : World) (id : Nat) (e : Ent) (pos : Vec2) (f : FollowComponent)
    (hnd : (w.map Prod.fst).Nodup) (hmem : (id, e) ∈ w)
    (hpos : e.pos = some pos) (hfol : e.follow = some f) :
    ((World.find w f.target).bind Ent.pos = none →
      (World.find (Overworld.follow w) id).bind Ent.pos = some pos) ∧
    (∀ tp, (World.find w f.target).bind Ent.pos = some tp →
      (|tp.x - pos.x| + |tp.y - pos.y| ≤ f.max_distance →
        (World.find (Overworld.follow w) id).bind Ent.pos = some pos) ∧
      (|tp.x - pos.x| + |tp.y - pos.y| > f.max_distance →
        (|tp.x - pos.x| > |tp.y - pos.y| →
          (World.find (Overworld.follow w) id).bind Ent.pos =
            some (pos + ⟨copysign (min |tp.x - pos.x| f.speed) (tp.x - pos.x), 0⟩)) ∧
        (|tp.y - pos.y| > |tp.x - pos.x| →
          (World.find (Overworld.follow w) id).bind Ent.pos =
            some (pos + ⟨0, copysign (min |tp.y - pos.y| f.speed) (tp.y - pos.y)⟩)))) := by
  obtain ⟨u₁, u₂, rfl⟩ := List.append_of_mem hmem
  obtain ⟨hid1, hid2⟩ := nodup_keys_split u₁ u₂ id e hnd
  have hke1 : ∀ p ∈ u₁, (p : Nat × Ent).1 ≠ id :=
    fun p hp he => hid1 (he ▸ List.mem_map_of_mem Prod.fst hp)
  have hke2 : ∀ p ∈ u₂, (p : Nat × Ent).1 ≠ id :=
    fun p hp he => hid2 (he ▸ List.mem_map_of_mem Prod.fst hp)
  have hq1 := filterMap_keys_ne (followEmit (u₁ ++ (id, e) :: u₂))
    (followEmit_fst (u₁ ++ (id, e) :: u₂)) u₁ id hke1
  have hq2 := filterMap_keys_ne (followEmit (u₁ ++ (id, e) :: u₂))
    (followEmit_fst (u₁ ++ (id, e) :: u₂)) u₂ id hke2
  have hfind : World.find (u₁ ++ (id, e) :: u₂) id = some e := find_append_first u₁ u₂ id e hid1
  have unchanged : followEmit (u₁ ++ (id, e) :: u₂) (id, e) = none →
      (World.find (Overworld.follow (u₁ ++ (id, e) :: u₂)) id).bind Ent.pos = some pos := by
    intro hemit
    have hsplit : Overworld.followAdjustments (u₁ ++ (id, e) :: u₂) =
        u₁.filterMap (followEmit (u₁ ++ (id, e) :: u₂)) ++
          u₂.filterMap (followEmit (u₁ ++ (id, e) :: u₂)) := by
      unfold Overworld.followAdjustments
      rw [List.filterMap_append, List.filterMap_cons, hemit]
    unfold Overworld.follow
    rw [hsplit]
    rw [find_fold_updatePos_ne _ _ _ (fun a ha => by
      rcases List.mem_append.mp ha with h | h
      · exact hq1 a h
      · exact hq2 a h)]
    rw [hfind]
    simp [hpos]
  have moved : ∀ adj : Vec2, followEmit (u₁ ++ (id, e) :: u₂) (id, e) = some (id, adj) →
      (World.find (Overworld.follow (u₁ ++ (id, e) :: u₂)) id).bind Ent.pos = some (pos + adj) := by
    intro adj hemit
    have hsplit : Overworld.followAdjustments (u₁ ++ (id, e) :: u₂) =
        u₁.filterMap (followEmit (u₁ ++ (id, e) :: u₂)) ++ (id, adj) ::
          u₂.filterMap (followEmit (u₁ ++ (id, e) :: u₂)) := by
      unfold Overworld.followAdjustments
      rw [List.filterMap_append, List.filterMap_cons, hemit]
    unfold Overworld.follow
    rw [hsplit, find_fold_updatePos_single _ _ _ _ _ hq1 hq2, hfind]
    simp [hpos]
  refine ⟨?_, ?_⟩
  · intro ht
    exact unchanged (followEmit_eval_none _ id e pos f hpos hfol ht)
  · intro tp ht
    have hemit := followEmit_eval (u₁ ++ (id, e) :: u₂) id e pos tp f hpos hfol ht
    refine ⟨?_, ?_⟩
    · intro hle
      have hadj : followAdjustment pos tp f = none := by
        unfold followAdjustment
        rw [if_neg (not_lt.mpr hle)]
      exact unchanged (by rw [hemit, hadj]; rfl)
    · intro hgt
      constructor
      · intro hxy
        have hadj : followAdjustment pos tp f =
            some ⟨copysign (min |tp.x - pos.x| f.speed) (tp.x - pos.x), 0⟩ := by
          unfold followAdjustment
          rw [if_pos hgt, if_pos hxy]
        exact moved _ (by rw [hemit, hadj]; rfl)
      · intro hyx
        have hadj : followAdjustment pos tp f =
            some ⟨0, copysign (min |tp.y - pos.y| f.speed) (tp.y - pos.y)⟩ := by
          unfold followAdjustment
          rw [if_pos hgt, if_neg (not_lt.mpr hyx.le)]
        exact moved _ (by rw [hemit, hadj]; rfl)

/-- Claim C6 (witness): the follower at `(10,0)` with target at the origin,
`max_distance` 4 and `speed` 1 moves to `(9,0)` in one follow tick. -/
theorem C6_follow_threshold_witness :
    (World.find (Overworld.follow followWorld) 1).bind Ent.pos = some ⟨9, 0⟩ :=
  ((((C6_follow_threshold followWorld 1 followerEnt ⟨10, 0⟩ ⟨0, 4, 1⟩ (by decide)
      (List.mem_cons_of_mem _ (List.mem_cons_self _ _)) rfl rfl).2 ⟨0, 0⟩ rfl).2
        (by norm_num)).1 (by norm_num)).trans (by
    norm_num [copysign, Vec2.add_def, min_def])

theorem find?_split {α : Type} (l : List α) (p : α → Bool) (x : α) (h : l.find? p = some x) :
    ∃ l₁ l₂, l = l₁ ++ x :: l₂ ∧ ∀ y ∈ l₁, p y = false := by
  induction l with
  | nil => simp at h
  | cons a tl ih =>
    by_cases hpa : p a = true
    · rw [List.find?_cons_of_pos _ hpa] at h
      cases h
      exact ⟨[], tl, rfl, by simp⟩
    · have hpa' : p a = false := by simpa using hpa
      rw [List.find?_cons_of_neg _ (by simp [hpa'])] at h
      obtain ⟨l₁, l₂, rfl, hl₁⟩ := ih h
      refine ⟨a :: l₁, l₂, rfl, ?_⟩
      intro y hy
      rcases List.mem_cons.mp hy with rfl | hy'
      · exact hpa'
      · exact hl₁ y hy'

set_option maxHeartbeats 1000000 in
/-- Claim C8: an interact dispatch for an actor with a `Position` emits at
most one `Interaction` event; when some entity with `Position` +
`Interactable` has offset bounds containing the actor's position, the
emitted event references a containing interactable of maximal priority
(first hit of the descending-priority scan); when none contains it, no
event is emitted; and in the concrete priority-5-lamp vs priority-1-ghost
world the event references the lamp only. -/
theorem C8_interact_priority (w : World) (entity : Nat) (pos : Vec2)
    (hpos : (World.find w entity).bind Ent.pos = some pos) :
    (Overworld.interact w entity).length ≤ 1 ∧
    (∀ id p i, (id, p, i) ∈ interactablesOf w → (i.bounds.offset p).contains pos = true →
      ∃ id' p' i', (id', p', i') ∈ interactablesOf w ∧
        (i'.bounds.offset p').contains pos = true ∧ i.priority ≤ i'.priority ∧
        Overworld.interact w entity = [Event.interactionEvent id' i'.interaction]) ∧
    ((∀ id p i, (id, p, i) ∈ interactablesOf w → (i.bounds.offset p).contains pos = false) →
      Overworld.interact w entity = []) ∧
    (Overworld.interact interactWorld 0 = [Event.interactionEvent 1 InteractableType.Lamp]) := by
  have hI : Overworld.interact w entity =
      (match ((interactablesOf w).insertionSort priorityLE).reverse.find?
          (fun q => (q.2.2.bounds.offset q.2.1).contains pos) with
       | some q => [Event.interactionEvent q.1 q.2.2.interaction]
       | none => []) := by
    unfold Overworld.interact
    rw [hpos]
  have hsorted : List.Sorted priorityLE ((interactablesOf w).insertionSort priorityLE) :=
    List.sorted_insertionSort _ _
  have hperm := List.perm_insertionSort priorityLE (interactablesOf w)
  refine ⟨?_, ?_, ?_, ?_⟩
  · rw [hI]
    cases hf : ((interactablesOf w).insertionSort priorityLE).reverse.find?
        (fun q => (q.2.2.bounds.offset q.2.1).contains pos) with
    | none => simp
    | some x => simp
  · intro id p i hmem hhit
    have hmem' : (id, p, i) ∈ ((interactablesOf w).insertionSort priorityLE).reverse := by
      rw [List.mem_reverse]
      exact hperm.mem_iff.mpr hmem
    cases hf : ((interactablesOf w).insertionSort priorityLE).reverse.find?
        (fun q => (q.2.2.bounds.offset q.2.1).contains pos) with
    | none =>
      exact absurd hhit (List.find?_eq_none.mp hf _ hmem')
    | some x =>
      obtain ⟨l₁, l₂, hdec, hl₁⟩ := find?_split _ _ _ hf
      have hx_pred : (x.2.2.bounds.offset x.2.1).contains pos = true := by
        have h0 := List.find?_some hf
        exact h0
      have hx_mem' : x ∈ interactablesOf w :=
        hperm.mem_iff.mp (List.mem_reverse.mp (List.mem_of_find?_eq_some hf))
      have hloc : (id, p, i) ∈ l₁ ++ x :: l₂ := hdec ▸ hmem'
      have hpri : i.priority ≤ x.2.2.priority := by
        rcases List.mem_append.mp hloc with h1 | h2
        · exact absurd hhit (by simp [hl₁ _ h1])
        · rcases List.mem_cons.mp h2 with heq | h3
          · rw [← heq]
          · have hs_eq : (interactablesOf w).insertionSort priorityLE =
                l₂.reverse ++ x :: l₁.reverse := by
              have h0 := congrArg List.reverse hdec
              rw [List.reverse_reverse] at h0
              rw [h0]
              simp [List.reverse_append]
            have hpw : List.Pairwise priorityLE (l₂.reverse ++ x :: l₁.reverse) := by
              rw [← hs_eq]
              exact hsorted
            have hcross := (List.pairwise_append.mp hpw).2.2
            exact hcross _ (List.mem_reverse.mpr h3) _ (List.mem_cons_self _ _)
      refine ⟨x.1, x.2.1, x.2.2, hx_mem', hx_pred, hpri, ?_⟩
      rw [hI, hf]
  · intro hnone
    rw [hI]
    cases hf : ((interactablesOf w).insertionSort priorityLE).reverse.find?
        (fun q => (q.2.2.bounds.offset q.2.1).contains pos) with
    | none => rfl
    | some x =>
      have hx_pred : (x.2.2.bounds.offset x.2.1).contains pos = true := by
        have h0 := List.find?_some hf
        exact h0
      have hx_mem' : x ∈ interactablesOf w :=
        hperm.mem_iff.mp (List.mem_reverse.mp (List.mem_of_find?_eq_some hf))
      have hfalse : (x.2.2.bounds.offset x.2.1).contains pos = false :=
        hnone x.1 x.2.1 x.2.2 hx_mem'
      rw [hfalse] at hx_pred
      exact Bool.noConfusion hx_pred
  · have hIc : Overworld.interact interactWorld 0 =
        (match ((interactablesOf interactWorld).insertionSort priorityLE).reverse.find?
            (fun q => (q.2.2.bounds.offset q.2.1).contains ⟨5, 5⟩) with
         | some q => [Event.interactionEvent q.1 q.2.2.interaction]
         | none => []) := rfl
    have hrev : ((interactablesOf interactWorld).insertionSort priorityLE).reverse =
        [(1, ⟨0, 0⟩, lamp5), (2, ⟨0, 0⟩, ghost1)] := rfl
    have h4 : ((fun q : Nat × Vec2 × Interactable =>
        (q.2.2.bounds.offset q.2.1).contains (⟨5, 5⟩ : Vec2)) (1, ⟨0, 0⟩, lamp5)) = true := by
      norm_num [Rect.contains, Rect.offset, lamp5]
    rw [hIc, hrev,
      @List.find?_cons_of_pos (Nat × Vec2 × Interactable)
        (fun q => (q.2.2.bounds.offset q.2.1).contains ⟨5, 5⟩)
        (1, ⟨0, 0⟩, lamp5) [(2, ⟨0, 0⟩, ghost1)] h4]
    rfl

/-- Claim C8 (witness): with the actor inside both the priority-5 lamp and
the priority-1 ghost interactable, the dispatched event references the
priority-5 lamp entity only. -/
theorem C8_interact_priority_witness :
    Overworld.interact interactWorld 0 = [Event.interactionEvent 1 InteractableType.Lamp] :=
  (C8_interact_priority interactWorld 0 ⟨5, 5⟩ rfl).2.2.2

end IllusoryFriends
